import Mathlib

/-!
Shallow embedding of the slidemaker repository (python) for checking its
natural-language specification.

Source files embedded:
  * `src/slidemaker/core/models/common.py` (Position, Size, Color, Alignment, FitMode)
  * `src/slidemaker/core/models/element.py` (FontConfig, TextElement, ImageElement)
  * `src/slidemaker/core/models/page_definition.py` (PageDefinition)
  * `src/slidemaker/workflows/composition_parser.py` (CompositionParser)
  * `src/slidemaker/image_processing/analyzer.py` (`_normalize_position`, `_normalize_size`)
  * `src/slidemaker/workflows/base.py` (`WorkflowOrchestrator._run_step`)
  * `src/slidemaker/workflows/conversion.py` (`_analyze_images`, `_process_images`)
  * `src/slidemaker/workflows/image_coordinator.py` (`generate_images`)
  * `src/slidemaker/workflows/new_slide.py` (`_update_image_paths`)

Python exceptions are modelled with `Except PyError`.  Pydantic model
construction is modelled by validating constructors returning
`Except PyError`.  Machine arithmetic: Python ints are unbounded, so `Int`
is exact; the float arithmetic of the analyzer is modelled over `ℚ` with
truncation toward zero (Python `int()`).
-/

namespace Slidemaker

/-- Python exceptions that the embedded code can raise.
`validationError` is pydantic's `ValidationError`; `keyError` is a failed
`dict[...]` subscript; the `workflow...` variants come from
`src/slidemaker/workflows/exceptions.py`. -/
inductive PyError where
  | keyError (key : String)
  | attributeError (msg : String)
  | validationError (msg : String)
  | valueError (msg : String)
  | workflowValidationError (msg : String)
  | workflowError (msg : String)
  | workflowStepError (msg : String) (stepName : String) (attempt : Nat)
      (origKind : String) (origMsg : String)
  deriving DecidableEq, Repr

/-- True exactly on pydantic `ValidationError` values. -/
def PyError.isValidation : PyError → Bool
  | .validationError _ => true
  | _ => false

/-- True exactly on successful `Except` results. -/
def exceptIsOk {ε α : Type} : Except ε α → Bool
  | .ok _ => true
  | .error _ => false

/-- True exactly on `WorkflowValidationError` values. -/
def PyError.isWorkflowValidation : PyError → Bool
  | .workflowValidationError _ => true
  | _ => false

/-- `Alignment` enum from `core/models/common.py` (values "left", "center",
"right", "justify"). -/
inductive Alignment where
  | left | center | right | justify
  deriving DecidableEq, Repr

/-- `FitMode` enum from `core/models/common.py` (values "contain", "cover",
"fill"). -/
inductive FitMode where
  | contain | cover | fill
  deriving DecidableEq, Repr

/-- `Position` model: two `int` fields, no range constraint in the source
(`x: int = Field(...)`, `y: int = Field(...)`). -/
structure Position where
  x : Int
  y : Int
  deriving DecidableEq, Repr

/-- `Size` model: the raw field values; pydantic's `gt=0` checks live in the
validating constructor `Size.validate`. -/
structure Size where
  width : Int
  height : Int
  deriving DecidableEq, Repr

/-- Pydantic construction of `Size`: both fields carry `gt=0`. -/
def Size.validate (width height : Int) : Except PyError Size :=
  if 0 < width ∧ 0 < height then
    .ok { width := width, height := height }
  else
    .error (.validationError "Size: input should be greater than 0")

/-- `Color` model: a single `hex_value` string with pattern
`^#[0-9A-Fa-f]{6}$`. -/
structure Color where
  hexValue : String
  deriving DecidableEq, Repr

/-- Decides the regex `^#[0-9A-Fa-f]{6}$` on a string. -/
def hexColorMatch (s : String) : Bool :=
  match s.data with
  | '#' :: rest =>
      rest.length = 6 && rest.all (fun c =>
        ('0' ≤ c && c ≤ '9') || ('A' ≤ c && c ≤ 'F') || ('a' ≤ c && c ≤ 'f'))
  | _ => false

/-- Pydantic construction of `Color` from a hex string. -/
def Color.validate (s : String) : Except PyError Color :=
  if hexColorMatch s then .ok { hexValue := s }
  else .error (.validationError "Color.hex_value: string should match pattern")

/-- `FontConfig` model fields (`core/models/element.py`). -/
structure FontConfig where
  family : String
  size : Int
  color : Color
  bold : Bool
  italic : Bool
  underline : Bool
  deriving DecidableEq, Repr

/-- `TextElement` model fields.  `element_type` is the fixed literal
"text" and is left implicit in the embedding. -/
structure TextElement where
  position : Position
  size : Size
  zIndex : Int
  opacity : ℚ
  content : String
  font : FontConfig
  alignment : Alignment
  lineSpacing : ℚ
  deriving DecidableEq, Repr

/-- `ImageElement` model fields.  `element_type` is the fixed literal
"image" and is left implicit in the embedding. -/
structure ImageElement where
  position : Position
  size : Size
  zIndex : Int
  opacity : ℚ
  source : String
  fitMode : FitMode
  altText : String
  deriving DecidableEq, Repr

/-- A slide element: the union `TextElement | ImageElement`. -/
inductive Element where
  | text (t : TextElement)
  | image (i : ImageElement)
  deriving DecidableEq, Repr

/-- Position of an element (the `position` field of either variant). -/
def Element.position : Element → Position
  | .text t => t.position
  | .image i => i.position

/-- Size of an element (the `size` field of either variant). -/
def Element.size : Element → Size
  | .text t => t.size
  | .image i => i.size

/-- `PageDefinition` model fields used by the composition parser.  The
parser also passes a `background_image` key, which is not a declared field
and is dropped by pydantic's default `extra="ignore"`. -/
structure PageDefinition where
  pageNumber : Int
  title : Option String
  elements : List Element
  backgroundColor : Option String
  deriving DecidableEq, Repr

/-- Pydantic construction of `PageDefinition`: `page_number` carries
`ge=1`, `background_color` carries the hex pattern (checked only when not
`None`). -/
def PageDefinition.validate (pageNumber : Int) (title : Option String)
    (elements : List Element) (backgroundColor : Option String) :
    Except PyError PageDefinition :=
  if 1 ≤ pageNumber then
    match backgroundColor with
    | none => .ok ⟨pageNumber, title, elements, none⟩
    | some c =>
        if hexColorMatch c then .ok ⟨pageNumber, title, elements, some c⟩
        else .error (.validationError "PageDefinition.background_color: string should match pattern")
  else .error (.validationError "PageDefinition.page_number: input should be greater than or equal to 1")

end Slidemaker

namespace Slidemaker

/-! ### Raw (untyped JSON) input of the composition parser

The parser receives `dict[str, Any]` data produced by an LLM.  We model the
keys the parser touches; a missing key read with `data["k"]` raises
`KeyError("k")`, a key read with `data.get("k", d)` falls back to `d`. -/

/-- Raw value found under a `position` or `size` key: a dict with two
integer coordinates, either of which may be absent. -/
structure RawXY where
  fst : Option Int
  snd : Option Int
  deriving DecidableEq, Repr

/-- Raw JSON value found under `font["color"]`: either a plain string or a
nested object (dict); pydantic accepts only the dict form for the
model-typed field `FontConfig.color`. -/
inductive RawColor where
  | str (s : String)
  | obj (hexValue : Option String)
  deriving DecidableEq, Repr

/-- Raw `font` dict of a text element. -/
structure RawFont where
  family : Option String
  size : Option Int
  color : Option RawColor
  bold : Option Bool
  italic : Option Bool
  underline : Option Bool
  deriving DecidableEq, Repr

/-- The empty raw font dict (`data.get("font", {})`). -/
def RawFont.empty : RawFont := ⟨none, none, none, none, none, none⟩

/-- Raw element dict.  `etype` models the `"type"` key. -/
structure RawElement where
  etype : Option String
  position : Option RawXY
  size : Option RawXY
  content : Option String
  font : Option RawFont
  alignment : Option String
  source : Option String
  fitMode : Option String
  zIndex : Option Int
  deriving DecidableEq, Repr

/-- Raw page dict. -/
structure RawPage where
  title : Option String
  backgroundColor : Option String
  backgroundImage : Option String
  elements : Option (List RawElement)
  deriving DecidableEq, Repr

/-- `data["k"]`: subscript access, raising `KeyError` when missing. -/
def getKey {α : Type} (v : Option α) (k : String) : Except PyError α :=
  match v with
  | some a => .ok a
  | none => .error (.keyError k)

/-- Pydantic validation of the value passed for `FontConfig.color`.  A raw
string is not a dict or `Color` instance, so it fails with a `model_type`
validation error; a dict must contain a pattern-matching `hex_value`. -/
def validateColorInput (c : RawColor) : Except PyError Color :=
  match c with
  | .str _ => .error (.validationError "FontConfig.color: input should be a valid dictionary or instance of Color")
  | .obj none => .error (.validationError "FontConfig.color.hex_value: field required")
  | .obj (some s) => Color.validate s

/-- Pydantic construction of `FontConfig`
(`size` carries `gt=0, le=200`). -/
def FontConfig.validate (family : String) (size : Int) (color : RawColor)
    (bold italic underline : Bool) : Except PyError FontConfig := do
  if 0 < size ∧ size ≤ 200 then
    let c ← validateColorInput color
    .ok { family := family, size := size, color := c,
          bold := bold, italic := italic, underline := underline }
  else
    .error (.validationError "FontConfig.size: input should be in (0, 200]")

/-- `Alignment(alignment_str)` with `except ValueError: alignment = LEFT`
(`composition_parser.py` lines 232-241).  The enum lookup compares the raw
string against the member values case-sensitively. -/
def parseAlignmentStr (s : String) : Alignment :=
  if s = "left" then .left
  else if s = "center" then .center
  else if s = "right" then .right
  else if s = "justify" then .justify
  else .left

/-- `FitMode(fit_mode_str)` with `except ValueError: fit_mode = CONTAIN`
(`composition_parser.py` lines 278-287). -/
def parseFitModeStr (s : String) : FitMode :=
  if s = "contain" then .contain
  else if s = "cover" then .cover
  else if s = "fill" then .fill
  else .contain

/-- `CompositionParser._parse_text_element`.  Evaluation order follows the
source: position, size, font, alignment, then the `TextElement(...)` call
whose keyword arguments fetch `data["content"]`. -/
def parse_text_element (data : RawElement) : Except PyError TextElement := do
  let posD ← getKey data.position "position"
  let px ← getKey posD.fst "x"
  let py ← getKey posD.snd "y"
  let position : Position := ⟨px, py⟩
  let sizeD ← getKey data.size "size"
  let sw ← getKey sizeD.fst "width"
  let sh ← getKey sizeD.snd "height"
  let size ← Size.validate sw sh
  let fontD := data.font.getD RawFont.empty
  let font ← FontConfig.validate (fontD.family.getD "Arial") (fontD.size.getD 18)
      (fontD.color.getD (RawColor.str "#000000")) (fontD.bold.getD false)
      (fontD.italic.getD false) (fontD.underline.getD false)
  let alignment := parseAlignmentStr (data.alignment.getD "left")
  let content ← getKey data.content "content"
  .ok { position := position, size := size, content := content, font := font,
        alignment := alignment, zIndex := data.zIndex.getD 0,
        opacity := 1, lineSpacing := 1 }

/-- `CompositionParser._parse_image_element`.  Evaluation order follows the
source: position, size, fit mode, then the `ImageElement(...)` call whose
keyword arguments fetch `data["source"]`. -/
def parse_image_element (data : RawElement) : Except PyError ImageElement := do
  let posD ← getKey data.position "position"
  let px ← getKey posD.fst "x"
  let py ← getKey posD.snd "y"
  let position : Position := ⟨px, py⟩
  let sizeD ← getKey data.size "size"
  let sw ← getKey sizeD.fst "width"
  let sh ← getKey sizeD.snd "height"
  let size ← Size.validate sw sh
  let fitMode := parseFitModeStr (data.fitMode.getD "contain")
  let source ← getKey data.source "source"
  .ok { position := position, size := size, source := source,
        fitMode := fitMode, zIndex := data.zIndex.getD 0,
        opacity := 1, altText := "" }

/-- `CompositionParser._parse_element`: dispatch on `data.get("type")`;
an unknown or missing type yields `None` (element skipped with a
warning). -/
def parse_element (data : RawElement) : Except PyError (Option Element) :=
  match data.etype with
  | some "text" => (parse_text_element data).map (fun t => some (.text t))
  | some "image" => (parse_image_element data).map (fun i => some (.image i))
  | _ => .ok none

/-- The element loop of `CompositionParser._normalize_page`: parse each raw
element in order, dropping the `None` results. -/
def parse_elements : List RawElement → Except PyError (List Element)
  | [] => .ok []
  | d :: rest => do
      let e? ← parse_element d
      let es ← parse_elements rest
      match e? with
      | some e => .ok (e :: es)
      | none => .ok es

/-- `CompositionParser._normalize_page` followed by the
`PageDefinition(**normalized)` construction in `parse_pages`. -/
def normalize_page (data : RawPage) (pageNumber : Int) :
    Except PyError PageDefinition := do
  let elements ← parse_elements (data.elements.getD [])
  PageDefinition.validate pageNumber (some (data.title.getD ""))
    elements data.backgroundColor

/-- The page loop of `CompositionParser.parse_pages`: page `i` (0-based)
gets `page_number = i + 1`; a pydantic `ValidationError` is caught and
re-raised as `WorkflowValidationError` naming the page; any other
exception (for example `KeyError`) propagates unchanged. -/
def parse_pages_from : Nat → List RawPage → Except PyError (List PageDefinition)
  | _, [] => .ok []
  | i, d :: rest =>
      match normalize_page d (Int.ofNat (i + 1)) with
      | .ok page =>
          match parse_pages_from (i + 1) rest with
          | .ok pages => .ok (page :: pages)
          | .error e => .error e
      | .error (.validationError m) =>
          .error (.workflowValidationError
            ("Failed to parse page " ++ toString (i + 1) ++ ": " ++ m))
      | .error e => .error e

/-- `CompositionParser.parse_pages`. -/
def parse_pages (pagesData : List RawPage) : Except PyError (List PageDefinition) :=
  parse_pages_from 0 pagesData

/-- A raw element that the claim C1 calls invalid: a text element with no
content, an image element with no source, or a text/image element missing
its position or size. -/
def badRawElement (e : RawElement) : Prop :=
  (e.etype = some "text" ∧ e.content = none) ∨
  (e.etype = some "image" ∧ e.source = none) ∨
  ((e.etype = some "text" ∨ e.etype = some "image") ∧
    (e.position = none ∨ e.size = none))

/-! ### `ImageAnalyzer._normalize_position` / `_normalize_size`
(`image_processing/analyzer.py` lines 347-433).  Python float arithmetic is
modelled over `ℚ`; `int(...)` truncates toward zero. -/

/-- Python `int()` applied to a real-valued intermediate: truncation toward
zero. -/
def truncQ (q : ℚ) : Int :=
  if 0 ≤ q then ⌊q⌋ else ⌈q⌉

/-- Python built-in `max` on two ints. -/
def pymax (a b : Int) : Int := if b ≤ a then a else b

/-- Python built-in `min` on two ints. -/
def pymin (a b : Int) : Int := if a ≤ b then a else b

/-- `ImageAnalyzer._normalize_position`.  `position_data.get("x", 0)` and
`get("y", 0)`; a zero-dimension source short-circuits to `Position(0, 0)`
before any division. -/
def normalize_position (positionData : RawXY)
    (originalImageSize : Int × Int) (slideDimensions : Int × Int) :
    Except PyError Position :=
  let x := positionData.fst.getD 0
  let y := positionData.snd.getD 0
  if originalImageSize.1 = 0 ∨ originalImageSize.2 = 0 then
    .ok ⟨0, 0⟩
  else
    let scaleX : ℚ := (slideDimensions.1 : ℚ) / (originalImageSize.1 : ℚ)
    let scaleY : ℚ := (slideDimensions.2 : ℚ) / (originalImageSize.2 : ℚ)
    let normalizedX := truncQ ((x : ℚ) * scaleX)
    let normalizedY := truncQ ((y : ℚ) * scaleY)
    .ok ⟨pymax 0 (pymin normalizedX slideDimensions.1),
         pymax 0 (pymin normalizedY slideDimensions.2)⟩

/-- `ImageAnalyzer._normalize_size`.  `size_data.get("width", 100)` and
`get("height", 50)`; a zero-dimension source short-circuits to
`Size(100, 50)`; otherwise the scaled values are clamped to
`[1, slide dimension]` and passed to the `Size` constructor. -/
def normalize_size (sizeData : RawXY)
    (originalImageSize : Int × Int) (slideDimensions : Int × Int) :
    Except PyError Size :=
  let width := sizeData.fst.getD 100
  let height := sizeData.snd.getD 50
  if originalImageSize.1 = 0 ∨ originalImageSize.2 = 0 then
    Size.validate 100 50
  else
    let scaleX : ℚ := (slideDimensions.1 : ℚ) / (originalImageSize.1 : ℚ)
    let scaleY : ℚ := (slideDimensions.2 : ℚ) / (originalImageSize.2 : ℚ)
    let normalizedWidth := truncQ ((width : ℚ) * scaleX)
    let normalizedHeight := truncQ ((height : ℚ) * scaleY)
    Size.validate (pymax 1 (pymin normalizedWidth slideDimensions.1))
      (pymax 1 (pymin normalizedHeight slideDimensions.2))

/-! ### `WorkflowOrchestrator._run_step` (`workflows/base.py` lines 80-158)

The operation is modelled as a function from the 0-based attempt index to
either a value or an exception `(kind, message)` (Python
`type(e).__name__` and `str(e)`).  The returned triple carries the value,
the number of attempts actually made, and the trace of `asyncio.sleep`
delays, so waiting behaviour is part of the observable result.  A run that
falls out of the loop without returning (only possible for
`max_retries = 0`) yields Python's implicit `None`, modelled as
`.ok none`. -/

/-- The `WorkflowStepError` raised on exhaustion: message
`"Step '<name>' failed after <n> attempts: <e>"`, `step_name`,
`attempt=max_retries`, details carrying the original error string and
type. -/
def mkStepError (stepName : String) (maxRetries : Nat) (e : String × String) :
    PyError :=
  .workflowStepError
    ("Step '" ++ stepName ++ "' failed after " ++ toString maxRetries ++
      " attempts: " ++ e.2)
    stepName maxRetries e.1 e.2

/-- The retry loop `for attempt in range(max_retries)` of `_run_step`,
with `attempt` the current 0-based index and `remaining` the iterations
left.  After a failure, `if attempt < max_retries - 1` sleeps `retry_delay`
and continues, else raises. -/
def run_step_iter {α : Type} (op : Nat → Except (String × String) α)
    (stepName : String) (retryDelay : ℚ) (maxRetries : Nat) :
    Nat → Nat → List ℚ → Except PyError (Option (α × Nat × List ℚ))
  | _, 0, _ => .ok none
  | attempt, remaining + 1, waits =>
      match op attempt with
      | .ok v => .ok (some (v, attempt + 1, waits))
      | .error e =>
          if (attempt : Int) < (maxRetries : Int) - 1 then
            run_step_iter op stepName retryDelay maxRetries
              (attempt + 1) remaining (waits ++ [retryDelay])
          else
            .error (mkStepError stepName maxRetries e)

/-- `WorkflowOrchestrator._run_step`. -/
def run_step {α : Type} (stepName : String)
    (op : Nat → Except (String × String) α)
    (maxRetries : Nat) (retryDelay : ℚ) :
    Except PyError (Option (α × Nat × List ℚ)) :=
  run_step_iter op stepName retryDelay maxRetries 0 maxRetries []

/-! ### `ConversionWorkflow._analyze_images` (`workflows/conversion.py`
lines 304-350)

`asyncio.gather` writes each task's result into the output slot of the
task's input index; the semaphore bounds how many tasks run at once but
only affects timing.  Completion timing is modelled by an explicit
completion order: a list of task indices in the order the tasks finish,
each write storing the analysis of that index's input. -/

/-- Fill result slots following a completion order. -/
def gather_fill {α β : Type} (f : α → β) (units : List α) :
    List (Option β) → List Nat → List (Option β)
  | slots, [] => slots
  | slots, i :: rest =>
      gather_fill f units (slots.set i (units[i]?.map f)) rest

/-- `_analyze_images` modelled over an analysis function `f`
(`image_analyzer.analyze_slide_image`), a concurrency bound (the
semaphore argument, which influences timing only) and a completion
order. -/
def analyze_images {α β : Type} (f : α → β) (images : List α)
    (maxConcurrent : Nat) (completionOrder : List Nat) : List (Option β) :=
  let _ := maxConcurrent
  gather_fill f images (List.replicate images.length none) completionOrder

/-! ### `ImageCoordinator.generate_images`
(`workflows/image_coordinator.py` lines 51-152)

Each request's generation outcome (`_generate_with_semaphore`) is an
oracle from the request to either a generated path or an exception
message.  `asyncio.gather(..., return_exceptions=True)` yields the
outcome list aligned with the request list. -/

/-- A raw image generation request (`id`, `prompt`, optional `size`). -/
structure ImageRequest where
  id : String
  prompt : String
  size : Option String
  deriving DecidableEq, Repr

/-- Python dict insertion: an existing key keeps its slot and gets the new
value, a new key is appended. -/
def dictInsert (m : List (String × String)) (k v : String) :
    List (String × String) :=
  if m.any (fun p => p.1 == k) then
    m.map (fun p => if p.1 == k then (k, v) else p)
  else
    m ++ [(k, v)]

/-- The result-aggregation loop of `generate_images`: successes enter the
`generated_images` dict, failures the `errors` list, in request order. -/
def collect_generated (pairs : List (ImageRequest × Except String String)) :
    List (String × String) :=
  pairs.foldl (fun m pr =>
    match pr.2 with
    | .ok p => dictInsert m pr.1.id p
    | .error _ => m) []

/-- The failed requests, as `(id, error)` pairs in request order. -/
def collect_errors (pairs : List (ImageRequest × Except String String)) :
    List (String × String) :=
  pairs.filterMap (fun pr =>
    match pr.2 with
    | .error e => some (pr.1.id, e)
    | .ok _ => none)

/-- `ImageCoordinator.generate_images`: empty input returns `{}`; if every
request failed a `WorkflowError` naming the failure count is raised;
otherwise the success dict is returned (partial failures only logged). -/
def generate_images (gen : ImageRequest → Except String String)
    (imageRequests : List ImageRequest) :
    Except PyError (List (String × String)) :=
  if imageRequests.isEmpty then .ok []
  else
    let results := imageRequests.map gen
    let pairs := imageRequests.zip results
    let generatedImages := collect_generated pairs
    let errors := collect_errors pairs
    if errors.length ≠ 0 ∧ errors.length = imageRequests.length then
      .error (.workflowError
        ("All " ++ toString errors.length ++ " image generation requests failed"))
    else
      .ok generatedImages

/-! ### Element aliasing model for the back-fill operations

Python elements are heap objects; a `Page.elements` list holds references.
The heap is a list of `Element` values indexed by reference, each page is
a list of references, and `conversion._process_images` /
`new_slide._update_image_paths` act on this store.  An in-place field
mutation changes the heap cell of an existing reference; a replacement
leaves every existing cell intact and installs a fresh reference. -/

/-- Crop-and-save collaborator of `_process_images`
(`image_processor.crop_element` + `save_image`): given the page image's
pixel dimensions, the computed bounding box and the output path, returns
the saved path, or `none` when it raised (the except-branch logs a warning
and continues). -/
abbrev CropOracle := (Int × Int) → (Int × Int × Int × Int) → String → Option String

/-- The pixel bounding box computed in `_process_images` lines 387-394:
`int(element.position.x * img_width / 100)` and friends. -/
def bboxOf (imgWidth imgHeight : Int) (e : ImageElement) :
    Int × Int × Int × Int :=
  (truncQ ((e.position.x : ℚ) * (imgWidth : ℚ) / 100),
   truncQ ((e.position.y : ℚ) * (imgHeight : ℚ) / 100),
   truncQ ((e.size.width : ℚ) * (imgWidth : ℚ) / 100),
   truncQ ((e.size.height : ℚ) * (imgHeight : ℚ) / 100))

/-- Inner loop of `_process_images` over one page's elements: a
non-image element is skipped; for an image element the crop is attempted
and, on success, `element.source = str(saved_path)` mutates the heap cell
of the existing reference. -/
def process_images_elems (oracle : CropOracle) (img : Int × Int)
    (tempDir : String) (pageIdx : Nat) :
    Nat → List Nat → List Element → List Element
  | _, [], heap => heap
  | elemIdx, r :: rs, heap =>
      let heap' :=
        match heap[r]? with
        | some (.image ie) =>
            let bbox := bboxOf img.1 img.2 ie
            let outputFilePath := tempDir ++ "/page" ++ toString pageIdx ++
              "_elem" ++ toString elemIdx ++ ".png"
            match oracle img bbox outputFilePath with
            | some savedPath => heap.set r (.image { ie with source := savedPath })
            | none => heap
        | _ => heap
      process_images_elems oracle img tempDir pageIdx (elemIdx + 1) rs heap'

/-- Outer loop of `_process_images` over `zip(images, pages)`. -/
def process_images_pages (oracle : CropOracle) (tempDir : String) :
    Nat → List ((Int × Int) × List Nat) → List Element → List Element
  | _, [], heap => heap
  | pageIdx, (img, refs) :: rest, heap =>
      process_images_pages oracle tempDir (pageIdx + 1) rest
        (process_images_elems oracle img tempDir pageIdx 0 refs heap)

/-- `ConversionWorkflow._process_images`: `zip(..., strict=True)` raises on
a length mismatch (wrapped into `WorkflowError` by the outer except);
otherwise the element loops run and the same page list is returned
together with the resulting heap. -/
def process_images (oracle : CropOracle) (images : List (Int × Int))
    (pages : List (List Nat)) (heap : List Element) (tempDir : String) :
    Except PyError (List (List Nat) × List Element) :=
  if images.length ≠ pages.length then
    .error (.workflowError "Failed to process images: zip() argument lengths differ")
  else
    .ok (pages, process_images_pages oracle tempDir 0 (images.zip pages) heap)

/-- Python substring membership `needle in haystack` on `List Char`:
some suffix of the haystack starts with the needle. -/
def charsStart : List Char → List Char → Bool
  | [], _ => true
  | _ :: _, [] => false
  | c :: cs, d :: ds => c = d && charsStart cs ds

/-- Python substring membership `needle in haystack`. -/
def strHasSub (needle haystack : String) : Bool :=
  go needle.data haystack.data
where
  go (n : List Char) : List Char → Bool
    | [] => charsStart n []
    | d :: ds => charsStart n (d :: ds) || go n ds

/-- Per-element body of `_update_image_paths` (`new_slide.py` lines
480-502): a text element is kept; an image element whose `source` contains
some generated id (first match in dict order wins) is rebuilt as a fresh
`ImageElement` carrying the old position, size, fit mode and z-index, the
generated path as `source`, and the constructor defaults for `alt_text`
and `opacity`.  Returns `none` when the element is kept as-is. -/
def updated_element (generatedImages : List (String × String))
    (e : Element) : Option Element :=
  match e with
  | .text _ => none
  | .image ie =>
      match generatedImages.find? (fun pr => strHasSub pr.1 ie.source) with
      | none => none
      | some pr =>
          some (.image { position := ie.position, size := ie.size,
                         source := pr.2, fitMode := ie.fitMode,
                         zIndex := ie.zIndex, opacity := 1, altText := "" })

/-- One page of `_update_image_paths`: each kept element retains its
reference; each rebuilt element is allocated at a fresh reference (the end
of the heap), so existing cells are never written. -/
def update_image_paths_refs (generatedImages : List (String × String)) :
    List Nat → List Element → List Nat × List Element
  | [], heap => ([], heap)
  | r :: rs, heap =>
      match heap[r]? with
      | some e =>
          match updated_element generatedImages e with
          | some e2 =>
              let rest := update_image_paths_refs generatedImages rs (heap ++ [e2])
              (heap.length :: rest.1, rest.2)
          | none =>
              let rest := update_image_paths_refs generatedImages rs heap
              (r :: rest.1, rest.2)
      | none =>
          let rest := update_image_paths_refs generatedImages rs heap
          (r :: rest.1, rest.2)

/-- `NewSlideWorkflow._update_image_paths` over all pages.  Each page's
element loop runs first, allocating the replacement elements (the heap
only ever grows).  The subsequent `PageDefinition(...)` rebuild
(`new_slide.py` line 509) then reads `page.background_image`, but
`PageDefinition` declares no `background_image` field — pydantic v2's
default `extra="ignore"` silently dropped the parser's extra kwarg — so
the attribute access raises `AttributeError` on the first page: a
non-empty page list never yields an updated page list.  The result pair
carries the outcome and the heap as left by the loop. -/
def update_image_paths (generatedImages : List (String × String)) :
    List (List Nat) → List Element →
      Except PyError (List (List Nat)) × List Element
  | [], heap => (.ok [], heap)
  | p :: _, heap =>
      let first := update_image_paths_refs generatedImages p heap
      (.error (.attributeError
        "'PageDefinition' object has no attribute 'background_image'"),
       first.2)

/-! ### `ImageElement.fit_mode` default (`core/models/element.py` line 46)

The field declaration reads `fit_mode: FitMode = Field(default=FitMode.FIT,
...)`.  `FitMode.FIT` is an enum attribute access; the members declared in
`core/models/common.py` are `CONTAIN`, `COVER`, `FILL`, and an access to
any other attribute raises `AttributeError` when the class body runs. -/

/-- Python attribute access `FitMode.<name>`: `some` member on the declared
names, `none` (`AttributeError`) otherwise. -/
def FitMode.fromAttr : String → Option FitMode
  | "CONTAIN" => some .contain
  | "COVER" => some .cover
  | "FILL" => some .fill
  | _ => none

/-- The default expression of the `fit_mode` field: `FitMode.FIT`. -/
def imageElementFitModeDefault : Option FitMode :=
  FitMode.fromAttr "FIT"

/-! ### Concrete inputs used by the claim theorems -/

/-- A raw text element with valid position/size, a dict-shaped font color
and the upper-case alignment string "CENTER". -/
def rawTextElemCenter : RawElement :=
  { etype := some "text", position := some ⟨some 10, some 20⟩,
    size := some ⟨some 100, some 30⟩, content := some "Hi",
    font := some ⟨none, none, some (.obj (some "#112233")), none, none, none⟩,
    alignment := some "CENTER", source := none, fitMode := none, zIndex := none }

/-- The element `rawTextElemCenter` parses to. -/
def textElemCenterParsed : TextElement :=
  { position := ⟨10, 20⟩, size := ⟨100, 30⟩, zIndex := 0, opacity := 1,
    content := "Hi", font := ⟨"Arial", 18, ⟨"#112233"⟩, false, false, false⟩,
    alignment := .left, lineSpacing := 1 }

/-- A raw image element with valid position and size but no `source`
key. -/
def rawImageNoSource : RawElement :=
  { etype := some "image", position := some ⟨some 10, some 20⟩,
    size := some ⟨some 100, some 30⟩, content := none, font := none,
    alignment := none, source := none, fitMode := none, zIndex := none }

/-- A raw image element whose position has the negative coordinate
`x = -1`. -/
def rawImageNegX : RawElement :=
  { etype := some "image", position := some ⟨some (-1), some 20⟩,
    size := some ⟨some 100, some 30⟩, content := none, font := none,
    alignment := none, source := some "img.png", fitMode := none, zIndex := none }

/-- The element `rawImageNegX` parses to. -/
def imageNegXParsed : ImageElement :=
  { position := ⟨-1, 20⟩, size := ⟨100, 30⟩, zIndex := 0, opacity := 1,
    source := "img.png", fitMode := .contain, altText := "" }

/-- An image element sitting in the heap before `_process_images` runs. -/
def imgElemA : ImageElement :=
  { position := ⟨10, 10⟩, size := ⟨20, 20⟩, zIndex := 0, opacity := 1,
    source := "", fitMode := .contain, altText := "" }

/-- The value `_process_images` leaves in `imgElemA`'s heap cell. -/
def imgElemAUpdated : ImageElement :=
  { imgElemA with source := "tmp/page0_elem0.png" }

/-- An image element with a placeholder source matching generated id
"img1" and a non-default alt text. -/
def imgElemB : ImageElement :=
  { position := ⟨1, 2⟩, size := ⟨3, 4⟩, zIndex := 5, opacity := 1,
    source := "generated_img1", fitMode := .cover, altText := "logo" }

/-- The freshly allocated element `_update_image_paths` builds from
`imgElemB`: the alt text is reset to the constructor default. -/
def imgElemBUpdated : ImageElement :=
  { imgElemB with source := "assets/img1.png", altText := "" }

/-- Scenario C operation: fails on the first two attempts, then
succeeds. -/
def opScenarioC : Nat → Except (String × String) Nat := fun i =>
  if i < 2 then .error ("RuntimeError", "boom") else .ok 42

/-- Scenario D generation oracle: only the request with id "img2"
fails. -/
def genScenarioD : ImageRequest → Except String String := fun r =>
  if r.id = "img2" then .error "fail" else .ok ("generated_" ++ r.id ++ ".png")

/-- Scenario D requests. -/
def reqsScenarioD : List ImageRequest :=
  [⟨"img1", "a cat", none⟩, ⟨"img2", "a dog", none⟩, ⟨"img3", "a bird", none⟩]

/-- Scenario E generation oracle: every request fails. -/
def genAllFail : ImageRequest → Except String String := fun _ => .error "fail"

/-- Scenario E requests. -/
def reqsScenarioE : List ImageRequest :=
  [⟨"img1", "a cat", none⟩, ⟨"img2", "a dog", none⟩]

end Slidemaker

namespace Slidemaker

/-! ### Helper lemmas -/

lemma le_pymax_left (a b : Int) : a ≤ pymax a b := by
  unfold pymax; split <;> omega

lemma pymax_le (a b c : Int) (h1 : a ≤ c) (h2 : b ≤ c) : pymax a b ≤ c := by
  unfold pymax; split <;> omega

lemma pymin_le_right (a b : Int) : pymin a b ≤ b := by
  unfold pymin; split <;> omega

lemma lt_of_getElem?_some {α : Type} {l : List α} {n : Nat} {a : α}
    (h : l[n]? = some a) : n < l.length := by
  by_contra hn
  rw [List.getElem?_eq_none (by omega)] at h
  exact Option.noConfusion h

lemma mem_of_getElem?_some {α : Type} {l : List α} {n : Nat} {a : α}
    (h : l[n]? = some a) : a ∈ l := by
  have hn := lt_of_getElem?_some h
  rw [List.getElem?_eq_getElem hn] at h
  injection h with h
  rw [← h]
  exact List.getElem_mem hn

lemma getElem?_of_heap_grows {α : Type} {l1 l2 : List α} (h : l1 <+: l2) {j : Nat}
    (hj : j < l1.length) : l2[j]? = l1[j]? := by
  obtain ⟨t, rfl⟩ := h
  exact List.getElem?_append_left hj

lemma updated_element_some {gen : List (String × String)} {e e2 : Element}
    (h : updated_element gen e = some e2) :
    ∃ ie pr, e = .image ie ∧
      gen.find? (fun q => strHasSub q.1 ie.source) = some pr ∧
      e2 = .image ⟨ie.position, ie.size, ie.zIndex, 1, pr.2, ie.fitMode, ""⟩ := by
  cases e with
  | text t => simp [updated_element] at h
  | image ie =>
      unfold updated_element at h
      dsimp only at h
      cases hf : gen.find? (fun q => strHasSub q.1 ie.source) with
      | none =>
          rw [hf] at h
          exact Option.noConfusion h
      | some pr =>
          rw [hf] at h
          dsimp only at h
          injection h with h
          exact ⟨ie, pr, rfl, hf, h.symm⟩

lemma upd_refs_heap_grows (gen : List (String × String)) :
    ∀ (rs : List Nat) (heap : List Element),
      heap <+: (update_image_paths_refs gen rs heap).2 := by
  intro rs
  induction rs with
  | nil => intro heap; exact ⟨[], List.append_nil heap⟩
  | cons r0 rs ih =>
      intro heap
      unfold update_image_paths_refs
      cases hh : heap[r0]? with
      | none => exact ih heap
      | some e =>
          dsimp only
          cases hu : updated_element gen e with
          | none => exact ih heap
          | some e2 =>
              have hstep : heap <+: heap ++ [e2] := ⟨[e2], rfl⟩
              exact hstep.trans (ih (heap ++ [e2]))

lemma upd_refs_len (gen : List (String × String)) :
    ∀ (rs : List Nat) (heap : List Element),
      (update_image_paths_refs gen rs heap).1.length = rs.length := by
  intro rs
  induction rs with
  | nil => intro heap; rfl
  | cons r0 rs ih =>
      intro heap
      unfold update_image_paths_refs
      cases hh : heap[r0]? with
      | none => simp [ih heap]
      | some e =>
          dsimp only
          cases hu : updated_element gen e with
          | none => simp [ih heap]
          | some e2 => simp [ih (heap ++ [e2])]

lemma upd_pages_heap_grows (gen : List (String × String)) :
    ∀ (pages : List (List Nat)) (heap : List Element),
      heap <+: (update_image_paths gen pages heap).2 := by
  intro pages heap
  cases pages with
  | nil => exact ⟨[], List.append_nil heap⟩
  | cons p ps => exact upd_refs_heap_grows gen p heap

lemma upd_refs_spec (gen : List (String × String)) :
    ∀ (rs : List Nat) (heap : List Element),
      (∀ r ∈ rs, r < heap.length) →
      ∀ (j : Nat) (r : Nat), rs[j]? = some r →
        ∃ r' e, (update_image_paths_refs gen rs heap).1[j]? = some r' ∧
          heap[r]? = some e ∧
          ((updated_element gen e = none ∧ r' = r ∧
             (update_image_paths_refs gen rs heap).2[r']? = some e) ∨
           (∃ e2, updated_element gen e = some e2 ∧
             (update_image_paths_refs gen rs heap).2[r']? = some e2)) := by
  intro rs
  induction rs with
  | nil =>
      intro heap wf j r hj
      simp at hj
  | cons r0 rs ih =>
      intro heap wf j r hj
      have hr0 : r0 < heap.length := wf r0 (List.mem_cons_self r0 rs)
      obtain ⟨e, hh⟩ : ∃ e, heap[r0]? = some e :=
        ⟨heap[r0], List.getElem?_eq_getElem hr0⟩
      cases hu : updated_element gen e with
      | none =>
          cases j with
          | zero =>
              obtain rfl : r0 = r := by
                rw [List.getElem?_cons_zero] at hj
                exact Option.some.inj hj
              unfold update_image_paths_refs
              rw [hh]
              dsimp only
              rw [hu]
              dsimp only
              refine ⟨r0, e, by rw [List.getElem?_cons_zero], rfl,
                Or.inl ⟨hu, rfl, ?_⟩⟩
              rw [getElem?_of_heap_grows (upd_refs_heap_grows gen rs heap) hr0]
              exact hh
          | succ j' =>
              have hj' : rs[j']? = some r := by
                rw [List.getElem?_cons_succ] at hj
                exact hj
              obtain ⟨r', e', h1, h2, h3⟩ :=
                ih heap (fun q hq => wf q (List.mem_cons_of_mem _ hq)) j' r hj'
              unfold update_image_paths_refs
              rw [hh]
              dsimp only
              rw [hu]
              dsimp only
              exact ⟨r', e', by rw [List.getElem?_cons_succ]; exact h1, h2, h3⟩
      | some e2 =>
          cases j with
          | zero =>
              obtain rfl : r0 = r := by
                rw [List.getElem?_cons_zero] at hj
                exact Option.some.inj hj
              unfold update_image_paths_refs
              rw [hh]
              dsimp only
              rw [hu]
              dsimp only
              refine ⟨heap.length, e, by rw [List.getElem?_cons_zero], rfl,
                Or.inr ⟨e2, hu, ?_⟩⟩
              have hlen : heap.length < (heap ++ [e2]).length := by
                simp
              rw [getElem?_of_heap_grows (upd_refs_heap_grows gen rs (heap ++ [e2])) hlen]
              exact List.getElem?_concat_length heap e2
          | succ j' =>
              have hj' : rs[j']? = some r := by
                rw [List.getElem?_cons_succ] at hj
                exact hj
              have hrmem : r ∈ rs := mem_of_getElem?_some hj'
              have hrlt : r < heap.length := wf r (List.mem_cons_of_mem _ hrmem)
              have wf' : ∀ q ∈ rs, q < (heap ++ [e2]).length := by
                intro q hq
                have h1 := wf q (List.mem_cons_of_mem _ hq)
                have h2 : (heap ++ [e2]).length = heap.length + 1 := by
                  rw [List.length_append]
                  rfl
                omega
              obtain ⟨r', e', h1, h2, h3⟩ := ih (heap ++ [e2]) wf' j' r hj'
              rw [List.getElem?_append_left hrlt] at h2
              unfold update_image_paths_refs
              rw [hh]
              dsimp only
              rw [hu]
              dsimp only
              exact ⟨r', e', by rw [List.getElem?_cons_succ]; exact h1, h2, h3⟩

lemma bind_eq_ok {ε α β : Type} {x : Except ε α} {f : α → Except ε β} {b : β}
    (h : (x >>= f) = .ok b) : ∃ a, x = .ok a ∧ f a = .ok b := by
  cases x with
  | ok a => exact ⟨a, rfl, h⟩
  | error e => exact Except.noConfusion h

lemma map_eq_ok {ε α β : Type} {x : Except ε α} {g : α → β} {b : β}
    (h : Except.map g x = .ok b) : ∃ a, x = .ok a ∧ g a = b := by
  cases x with
  | ok a =>
      refine ⟨a, rfl, ?_⟩
      simpa [Except.map] using h
  | error e => exact Except.noConfusion h

lemma getKey_ok {α : Type} {v : Option α} {k : String} {a : α}
    (h : getKey v k = .ok a) : v = some a := by
  cases v with
  | some b => simpa [getKey] using h
  | none => exact Except.noConfusion h

lemma size_validate_ok {w h : Int} {s : Size}
    (hv : Size.validate w h = .ok s) :
    0 < s.width ∧ 0 < s.height ∧ s.width = w ∧ s.height = h := by
  unfold Size.validate at hv
  split at hv
  · rename_i hc
    injection hv with hv
    subst hv
    exact ⟨hc.1, hc.2, rfl, rfl⟩
  · exact Except.noConfusion hv

lemma page_validate_ok {n : Int} {title : Option String} {els : List Element}
    {bg : Option String} {p : PageDefinition}
    (h : PageDefinition.validate n title els bg = .ok p) :
    p.elements = els := by
  unfold PageDefinition.validate at h
  split at h
  · cases bg with
    | none =>
        injection h with h
        subst h
        rfl
    | some c =>
        dsimp only at h
        split at h
        · injection h with h
          subst h
          rfl
        · exact Except.noConfusion h
  · exact Except.noConfusion h

lemma parse_text_element_ok_facts {d : RawElement} {t : TextElement}
    (h : parse_text_element d = .ok t) :
    (∃ posD, d.position = some posD) ∧ (∃ sizeD, d.size = some sizeD) ∧
    d.content = some t.content ∧ 0 < t.size.width ∧ 0 < t.size.height ∧
    t.alignment = parseAlignmentStr (d.alignment.getD "left") := by
  unfold parse_text_element at h
  obtain ⟨posD, hpos, h⟩ := bind_eq_ok h
  obtain ⟨px, hpx, h⟩ := bind_eq_ok h
  obtain ⟨py, hpy, h⟩ := bind_eq_ok h
  obtain ⟨sizeD, hsize, h⟩ := bind_eq_ok h
  obtain ⟨sw, hsw, h⟩ := bind_eq_ok h
  obtain ⟨sh, hsh, h⟩ := bind_eq_ok h
  obtain ⟨size, hsz, h⟩ := bind_eq_ok h
  obtain ⟨font, hfont, h⟩ := bind_eq_ok h
  obtain ⟨content, hcontent, h⟩ := bind_eq_ok h
  injection h with h
  subst h
  obtain ⟨hw, hh, -, -⟩ := size_validate_ok hsz
  exact ⟨⟨posD, getKey_ok hpos⟩, ⟨sizeD, getKey_ok hsize⟩,
    getKey_ok hcontent, hw, hh, rfl⟩

lemma parse_image_element_ok_facts {d : RawElement} {i : ImageElement}
    (h : parse_image_element d = .ok i) :
    (∃ posD, d.position = some posD) ∧ (∃ sizeD, d.size = some sizeD) ∧
    d.source = some i.source ∧ 0 < i.size.width ∧ 0 < i.size.height := by
  unfold parse_image_element at h
  obtain ⟨posD, hpos, h⟩ := bind_eq_ok h
  obtain ⟨px, hpx, h⟩ := bind_eq_ok h
  obtain ⟨py, hpy, h⟩ := bind_eq_ok h
  obtain ⟨sizeD, hsize, h⟩ := bind_eq_ok h
  obtain ⟨sw, hsw, h⟩ := bind_eq_ok h
  obtain ⟨sh, hsh, h⟩ := bind_eq_ok h
  obtain ⟨size, hsz, h⟩ := bind_eq_ok h
  obtain ⟨source, hsource, h⟩ := bind_eq_ok h
  injection h with h
  subst h
  obtain ⟨hw, hh, -, -⟩ := size_validate_ok hsz
  exact ⟨⟨posD, getKey_ok hpos⟩, ⟨sizeD, getKey_ok hsize⟩,
    getKey_ok hsource, hw, hh⟩

lemma parse_element_ok_size {d : RawElement} {e : Element}
    (h : parse_element d = .ok (some e)) :
    0 < e.size.width ∧ 0 < e.size.height := by
  unfold parse_element at h
  split at h
  · obtain ⟨t, ht, h⟩ := map_eq_ok h
    obtain ⟨-, -, -, hw, hh, -⟩ := parse_text_element_ok_facts ht
    cases h
    exact ⟨hw, hh⟩
  · obtain ⟨i, hi, h⟩ := map_eq_ok h
    obtain ⟨-, -, -, hw, hh⟩ := parse_image_element_ok_facts hi
    cases h
    exact ⟨hw, hh⟩
  · exact absurd h (by simp)

lemma parse_element_ok_not_bad {d : RawElement} {r : Option Element}
    (h : parse_element d = .ok r) (hbad : badRawElement d) : False := by
  unfold parse_element at h
  rcases hbad with ⟨htype, hc⟩ | ⟨htype, hs⟩ | ⟨htype, hps⟩
  · rw [htype] at h
    obtain ⟨t, ht, -⟩ := map_eq_ok h
    obtain ⟨-, -, hcontent, -⟩ := parse_text_element_ok_facts ht
    rw [hc] at hcontent
    exact Option.noConfusion hcontent
  · rw [htype] at h
    obtain ⟨i, hi, -⟩ := map_eq_ok h
    obtain ⟨-, -, hsource, -⟩ := parse_image_element_ok_facts hi
    rw [hs] at hsource
    exact Option.noConfusion hsource
  · rcases htype with htype | htype
    · rw [htype] at h
      obtain ⟨t, ht, -⟩ := map_eq_ok h
      obtain ⟨⟨posD, hpos⟩, ⟨sizeD, hsize⟩, -⟩ := parse_text_element_ok_facts ht
      rcases hps with hp | hp
      · rw [hp] at hpos
        exact Option.noConfusion hpos
      · rw [hp] at hsize
        exact Option.noConfusion hsize
    · rw [htype] at h
      obtain ⟨i, hi, -⟩ := map_eq_ok h
      obtain ⟨⟨posD, hpos⟩, ⟨sizeD, hsize⟩, -⟩ := parse_image_element_ok_facts hi
      rcases hps with hp | hp
      · rw [hp] at hpos
        exact Option.noConfusion hpos
      · rw [hp] at hsize
        exact Option.noConfusion hsize

lemma parse_elements_ok_sizes :
    ∀ {ds : List RawElement} {es : List Element},
      parse_elements ds = .ok es →
      ∀ e ∈ es, 0 < e.size.width ∧ 0 < e.size.height := by
  intro ds
  induction ds with
  | nil =>
      intro es h e he
      unfold parse_elements at h
      injection h with h
      subst h
      exact absurd he (List.not_mem_nil e)
  | cons d rest ih =>
      intro es h e he
      unfold parse_elements at h
      obtain ⟨e?, he?, h⟩ := bind_eq_ok h
      obtain ⟨es', hes', h⟩ := bind_eq_ok h
      cases e? with
      | some e0 =>
          dsimp only at h
          injection h with h
          subst h
          rcases List.mem_cons.mp he with he0 | hrest
          · subst he0
            exact parse_element_ok_size he?
          · exact ih hes' e hrest
      | none =>
          dsimp only at h
          injection h with h
          subst h
          exact ih hes' e he

lemma parse_elements_ok_all :
    ∀ {ds : List RawElement} {es : List Element},
      parse_elements ds = .ok es →
      ∀ d ∈ ds, ∃ r, parse_element d = .ok r := by
  intro ds
  induction ds with
  | nil =>
      intro es h d hd
      exact absurd hd (List.not_mem_nil d)
  | cons d0 rest ih =>
      intro es h d hd
      unfold parse_elements at h
      obtain ⟨e?, he?, h⟩ := bind_eq_ok h
      obtain ⟨es', hes', h⟩ := bind_eq_ok h
      rcases List.mem_cons.mp hd with hd0 | hrest
      · subst hd0
        exact ⟨e?, he?⟩
      · exact ih hes' d hrest

lemma normalize_page_ok {d : RawPage} {n : Int} {page : PageDefinition}
    (h : normalize_page d n = .ok page) :
    parse_elements (d.elements.getD []) = .ok page.elements := by
  unfold normalize_page at h
  obtain ⟨els, hels, h⟩ := bind_eq_ok h
  rw [page_validate_ok h]
  exact hels

lemma parse_pages_from_ok_pages :
    ∀ {l : List RawPage} {i : Nat} {res : List PageDefinition},
      parse_pages_from i l = .ok res →
      ∀ pg ∈ res, ∃ d n, normalize_page d n = .ok pg := by
  intro l
  induction l with
  | nil =>
      intro i res h pg hpg
      unfold parse_pages_from at h
      injection h with h
      subst h
      exact absurd hpg (List.not_mem_nil pg)
  | cons d rest ih =>
      intro i res h pg hpg
      unfold parse_pages_from at h
      split at h
      · rename_i page hnorm
        split at h
        · rename_i pages hrest
          injection h with h
          subst h
          rcases List.mem_cons.mp hpg with hpg0 | hpgs
          · subst hpg0
            exact ⟨d, Int.ofNat (i + 1), hnorm⟩
          · exact ih hrest pg hpgs
        · exact Except.noConfusion h
      · exact Except.noConfusion h
      · exact Except.noConfusion h

lemma parse_pages_from_ok_all_raw :
    ∀ {l : List RawPage} {i : Nat} {res : List PageDefinition},
      parse_pages_from i l = .ok res →
      ∀ d ∈ l, ∃ n pg, normalize_page d n = .ok pg := by
  intro l
  induction l with
  | nil =>
      intro i res h d hd
      exact absurd hd (List.not_mem_nil d)
  | cons d0 rest ih =>
      intro i res h d hd
      unfold parse_pages_from at h
      split at h
      · rename_i page hnorm
        split at h
        · rename_i pages hrest
          rcases List.mem_cons.mp hd with hd0 | hds
          · subst hd0
            exact ⟨Int.ofNat (i + 1), page, hnorm⟩
          · exact ih hrest d hds
        · exact Except.noConfusion h
      · exact Except.noConfusion h
      · exact Except.noConfusion h

lemma zip_map_any {α β : Type} (gen : α → β) (p : α → β → Bool) :
    ∀ requests : List α,
      (requests.zip (requests.map gen)).any (fun pr => p pr.1 pr.2) =
        requests.any (fun r => p r (gen r)) := by
  intro requests
  induction requests with
  | nil => rfl
  | cons r rest ih => simp [ih]

lemma zip_map_filterMap_length {α β γ : Type} (gen : α → β) (p : α → β → Option γ) :
    ∀ requests : List α,
      ((requests.zip (requests.map gen)).filterMap (fun pr => p pr.1 pr.2)).length ≤
        requests.length := by
  intro requests
  induction requests with
  | nil => simp
  | cons r rest ih =>
      simp only [List.map_cons, List.zip_cons_cons, List.filterMap_cons]
      cases p r (gen r) <;> simp <;> omega

lemma collect_errors_cons (r : ImageRequest) (res : Except String String)
    (pairs : List (ImageRequest × Except String String)) :
    collect_errors ((r, res) :: pairs) =
      match res with
      | .error e => (r.id, e) :: collect_errors pairs
      | .ok _ => collect_errors pairs := by
  cases res <;> simp [collect_errors]

lemma collect_errors_zip_le (gen : ImageRequest → Except String String) :
    ∀ requests : List ImageRequest,
      (collect_errors (requests.zip (requests.map gen))).length ≤
        requests.length := by
  intro requests
  induction requests with
  | nil => simp [collect_errors]
  | cons r rest ih =>
      rw [List.map_cons, List.zip_cons_cons, collect_errors_cons]
      cases gen r <;> simp only [List.length_cons] <;> omega

lemma collect_errors_length_eq_iff (gen : ImageRequest → Except String String) :
    ∀ requests : List ImageRequest,
      (collect_errors (requests.zip (requests.map gen))).length = requests.length ↔
        ∀ r ∈ requests, exceptIsOk (gen r) = false := by
  intro requests
  induction requests with
  | nil => simp [collect_errors]
  | cons r rest ih =>
      rw [List.map_cons, List.zip_cons_cons, collect_errors_cons]
      cases hg : gen r with
      | ok path =>
          have hle := collect_errors_zip_le gen rest
          constructor
          · intro h
            simp only [List.length_cons] at h
            omega
          · intro h
            have hr := h r (List.mem_cons_self r rest)
            simp [exceptIsOk, hg] at hr
      | error e =>
          simp only [List.length_cons]
          constructor
          · intro h q hq
            rcases List.mem_cons.mp hq with hq1 | hq2
            · subst hq1; simp [exceptIsOk, hg]
            · exact (ih.mp (by omega)) q hq2
          · intro h
            have h2 := ih.mpr (fun q hq => h q (List.mem_cons_of_mem r hq))
            omega

lemma map_replace_any_key (m : List (String × String)) (k v s : String) :
    (m.map (fun p => if p.1 == k then (k, v) else p)).any (fun p => p.1 == s) =
      m.any (fun p => p.1 == s) := by
  induction m with
  | nil => rfl
  | cons q rest ihm =>
      simp only [List.map_cons, List.any_cons, ihm]
      by_cases hq : q.1 == k
      · have hqe : q.1 = k := by simpa using hq
        simp [hq, hqe]
      · simp [hq]

lemma dictInsert_any_key (m : List (String × String)) (k v s : String) :
    (dictInsert m k v).any (fun p => p.1 == s) =
      (m.any (fun p => p.1 == s) || (k == s)) := by
  unfold dictInsert
  by_cases hk : m.any (fun p => p.1 == k)
  · rw [if_pos hk, map_replace_any_key]
    by_cases hks : k == s
    · have hkseq : k = s := by simpa using hks
      subst hkseq
      simp [hk]
    · simp [hks]
  · rw [if_neg hk]
    simp

lemma collect_generated_any_key :
    ∀ (pairs : List (ImageRequest × Except String String))
      (m : List (String × String)) (s : String),
      ((pairs.foldl (fun m pr =>
          match pr.2 with
          | .ok p => dictInsert m pr.1.id p
          | .error _ => m) m).any (fun p => p.1 == s)) =
        (m.any (fun p => p.1 == s) ||
          pairs.any (fun pr => pr.1.id == s && exceptIsOk pr.2)) := by
  intro pairs
  induction pairs with
  | nil => simp
  | cons pr rest ih =>
      intro m s
      cases hg : pr.2 with
      | ok path =>
          simp only [List.foldl_cons, List.any_cons, hg]
          rw [ih, dictInsert_any_key]
          simp [exceptIsOk, Bool.or_assoc]
      | error e =>
          simp only [List.foldl_cons, List.any_cons, hg]
          rw [ih]
          simp [exceptIsOk]

lemma gather_fill_length {α β : Type} (f : α → β) (units : List α) :
    ∀ (order : List Nat) (slots : List (Option β)),
      (gather_fill f units slots order).length = slots.length := by
  intro order
  induction order with
  | nil => intro slots; rfl
  | cons i rest ih =>
      intro slots
      rw [gather_fill, ih, List.length_set]

lemma gather_fill_getElem? {α β : Type} (f : α → β) (units : List α) :
    ∀ (order : List Nat) (slots : List (Option β)) (j : Nat), j < slots.length →
      (gather_fill f units slots order)[j]? =
        if j ∈ order then some (units[j]?.map f) else slots[j]? := by
  intro order
  induction order with
  | nil =>
      intro slots j hj
      simp [gather_fill]
  | cons i rest ih =>
      intro slots j hj
      rw [gather_fill]
      have hlen : j < (slots.set i (units[i]?.map f)).length := by
        rw [List.length_set]; exact hj
      rw [ih (slots.set i (units[i]?.map f)) j hlen]
      by_cases hjr : j ∈ rest
      · simp [hjr, List.mem_cons]
      · by_cases hij : i = j
        · subst hij
          simp [hjr, List.mem_cons, List.getElem?_set, hj]
        · simp [hjr, List.mem_cons, List.getElem?_set, hij, Ne.symm hij]

lemma run_step_iter_attempts_le {α : Type} (op : Nat → Except (String × String) α)
    (name : String) (delay : ℚ) (mr : Nat) :
    ∀ (rem a : Nat) (waits : List ℚ) (v : α) (j : Nat) (ws : List ℚ),
      run_step_iter op name delay mr a rem waits = .ok (some (v, j, ws)) →
      j ≤ a + rem := by
  intro rem
  induction rem with
  | zero =>
      intro a waits v j ws h
      simp [run_step_iter] at h
  | succ rem ih =>
      intro a waits v j ws h
      rw [run_step_iter] at h
      cases hop : op a with
      | ok v' =>
          rw [hop] at h
          simp at h
          omega
      | error e =>
          rw [hop] at h
          dsimp only at h
          by_cases hc : (a : Int) < (mr : Int) - 1
          · rw [if_pos hc] at h
            have := ih (a + 1) (waits ++ [delay]) v j ws h
            omega
          · rw [if_neg hc] at h
            simp at h

lemma run_step_iter_success {α : Type} (op : Nat → Except (String × String) α)
    (name : String) (delay : ℚ) (mr j : Nat) (v : α)
    (hj : j < mr) (hfail : ∀ i, i < j → ∃ e, op i = .error e)
    (hok : op j = .ok v) :
    ∀ (rem a : Nat), a + rem = mr → a ≤ j →
      run_step_iter op name delay mr a rem (List.replicate a delay) =
        .ok (some (v, j + 1, List.replicate j delay)) := by
  intro rem
  induction rem with
  | zero =>
      intro a hsum haj
      omega
  | succ rem ih =>
      intro a hsum haj
      by_cases heq : a = j
      · subst heq
        rw [run_step_iter, hok]
      · obtain ⟨e, he⟩ := hfail a (by omega)
        rw [run_step_iter, he]
        dsimp only
        have hc : (a : Int) < (mr : Int) - 1 := by omega
        rw [if_pos hc, ← List.replicate_succ' a delay]
        exact ih (a + 1) (by omega) (by omega)

lemma run_step_iter_exhaust {α : Type} (op : Nat → Except (String × String) α)
    (name : String) (delay : ℚ) (mr : Nat) (f : Nat → String × String)
    (hfail : ∀ i, i < mr → op i = .error (f i)) :
    ∀ (rem a : Nat) (waits : List ℚ), a + rem = mr → 1 ≤ rem →
      run_step_iter op name delay mr a rem waits =
        .error (mkStepError name mr (f (mr - 1))) := by
  intro rem
  induction rem with
  | zero =>
      intro a waits hsum h1
      omega
  | succ rem ih =>
      intro a waits hsum h1
      by_cases h0 : rem = 0
      · subst h0
        have ha : a = mr - 1 := by omega
        have he : op a = .error (f a) := hfail a (by omega)
        rw [run_step_iter, he]
        dsimp only
        have hc : ¬ ((a : Int) < (mr : Int) - 1) := by omega
        rw [if_neg hc, ha]
      · have he : op a = .error (f a) := hfail a (by omega)
        rw [run_step_iter, he]
        dsimp only
        have hc : (a : Int) < (mr : Int) - 1 := by omega
        rw [if_pos hc]
        exact ih (a + 1) (waits ++ [delay]) (by omega) (by omega)

end Slidemaker

namespace Slidemaker

/-! ### Claim theorems -/

/-- C10.  The claim asserts that constructing an `ImageElement` with the
`fit_mode` field omitted succeeds with a default among
contain/cover/fill.  The field's declared default expression is
`FitMode.FIT`, and the `FitMode` enum has no member `FIT`: the attribute
lookup fails (`AttributeError` as soon as the class body is evaluated),
while every declared member resolves. -/
theorem c10_fit_mode_default_missing :
    imageElementFitModeDefault = none ∧
    FitMode.fromAttr "CONTAIN" = some .contain ∧
    FitMode.fromAttr "COVER" = some .cover ∧
    FitMode.fromAttr "FILL" = some .fill := by
  exact ⟨rfl, rfl, rfl, rfl⟩

/-- C7.  For a source size with positive width and height and a positive
target size, `_normalize_position` scales each axis independently by
target/source with truncation to integer and clamps into
`[0, W] × [0, H]`; every returned position obeys the bounds. -/
theorem c7_normalize_position_scales_and_clamps
    (pd : RawXY) (w h W H : Int) (hw : 0 < w) (hh : 0 < h)
    (hW : 0 < W) (hH : 0 < H) (px py : Int)
    (hp : normalize_position pd (w, h) (W, H) = .ok ⟨px, py⟩) :
    px = pymax 0 (pymin (truncQ ((pd.fst.getD 0 : ℚ) * ((W : ℚ) / (w : ℚ)))) W) ∧
    py = pymax 0 (pymin (truncQ ((pd.snd.getD 0 : ℚ) * ((H : ℚ) / (h : ℚ)))) H) ∧
    0 ≤ px ∧ px ≤ W ∧ 0 ≤ py ∧ py ≤ H := by
  have hzero : ¬ (w = 0 ∨ h = 0) := by omega
  unfold normalize_position at hp
  simp only [hzero, if_false] at hp
  obtain ⟨hx, hy⟩ : px = pymax 0 (pymin (truncQ ((pd.fst.getD 0 : ℚ) * ((W : ℚ) / (w : ℚ)))) W) ∧
      py = pymax 0 (pymin (truncQ ((pd.snd.getD 0 : ℚ) * ((H : ℚ) / (h : ℚ)))) H) := by
    have := hp
    injection this with h1
    injection h1 with hx hy
    exact ⟨hx.symm, hy.symm⟩
  refine ⟨hx, hy, ?_, ?_, ?_, ?_⟩
  · rw [hx]; exact le_pymax_left 0 _
  · rw [hx]; exact pymax_le _ _ _ (le_of_lt hW) (pymin_le_right _ _)
  · rw [hy]; exact le_pymax_left 0 _
  · rw [hy]; exact pymax_le _ _ _ (le_of_lt hH) (pymin_le_right _ _)

/-- C7 witness: Scenario B, `normalizePosition({x:100,y:100}, {960,540},
{1920,1080})` returns `{x:200, y:200}`, which satisfies the theorem's
bounds. -/
theorem c7_witness :
    normalize_position ⟨some 100, some 100⟩ (960, 540) (1920, 1080) = .ok ⟨200, 200⟩ ∧
    (0 ≤ (200 : Int) ∧ (200 : Int) ≤ 1920 ∧ 0 ≤ (200 : Int) ∧ (200 : Int) ≤ 1080) := by
  have heq : normalize_position ⟨some 100, some 100⟩ (960, 540) (1920, 1080) = .ok ⟨200, 200⟩ := by
    simp [normalize_position, truncQ, pymax, pymin]
    norm_num
  have hb := c7_normalize_position_scales_and_clamps ⟨some 100, some 100⟩
    960 540 1920 1080 (by norm_num) (by norm_num) (by norm_num) (by norm_num) 200 200 heq
  exact ⟨heq, hb.2.2.1, hb.2.2.2.1, hb.2.2.2.2.1, hb.2.2.2.2.2⟩

/-- C8.  With a zero-dimension source size, `_normalize_position` returns
the fallback `Position(0, 0)` and `_normalize_size` returns the fallback
`Size(100, 50)`; both return normally (no exception, no division
reached). -/
theorem c8_zero_dimension_fallbacks
    (pd sd : RawXY) (orig slide : Int × Int)
    (hz : orig.1 = 0 ∨ orig.2 = 0) :
    normalize_position pd orig slide = .ok ⟨0, 0⟩ ∧
    normalize_size sd orig slide = .ok ⟨100, 50⟩ := by
  constructor
  · unfold normalize_position
    simp [hz]
  · unfold normalize_size
    simp [hz, Size.validate]

/-- C4.  For `maxRetries ≥ 1`: the runner makes at most `maxRetries`
attempts; if the first `j` attempts fail and attempt `j+1` succeeds
(`j + 1 ≤ maxRetries`), the success value is returned after exactly
`j + 1` attempts with a fixed `retryDelay` sleep between consecutive
attempts; if all `maxRetries` attempts fail, a `WorkflowStepError`
carrying the step name, the attempt count `maxRetries` and the last
original error's kind and message is raised. -/
theorem c4_run_step_retry_contract {α : Type}
    (op : Nat → Except (String × String) α) (stepName : String)
    (delay : ℚ) (mr : Nat) (hmr : 1 ≤ mr) :
    (∀ (v : α) (j : Nat) (ws : List ℚ),
        run_step stepName op mr delay = .ok (some (v, j, ws)) → j ≤ mr) ∧
    (∀ (j : Nat) (v : α), j < mr → (∀ i, i < j → ∃ e, op i = .error e) →
        op j = .ok v →
        run_step stepName op mr delay =
          .ok (some (v, j + 1, List.replicate j delay))) ∧
    (∀ f : Nat → String × String, (∀ i, i < mr → op i = .error (f i)) →
        run_step stepName op mr delay =
          .error (mkStepError stepName mr (f (mr - 1)))) := by
  refine ⟨?_, ?_, ?_⟩
  · intro v j ws h
    have := run_step_iter_attempts_le op stepName delay mr mr 0 [] v j ws h
    omega
  · intro j v hj hfail hok
    have := run_step_iter_success op stepName delay mr j v hj hfail hok mr 0
      (by omega) (by omega)
    simpa [run_step] using this
  · intro f hfail
    exact run_step_iter_exhaust op stepName delay mr f hfail mr 0 [] (by omega) hmr

/-- C4 witness: Scenario C, an operation failing twice then succeeding
with `maxRetries = 3` returns the success value after exactly 3 attempts,
having slept the fixed delay twice. -/
theorem c4_witness :
    (1 ≤ 3) ∧
    run_step "convert" opScenarioC 3 1 = .ok (some (42, 3, [1, 1])) := by
  refine ⟨by norm_num, ?_⟩
  have h := (c4_run_step_retry_contract opScenarioC "convert" 1 3 (by norm_num)).2.1
    2 42 (by norm_num)
    (fun i hi => ⟨("RuntimeError", "boom"), by simp [opScenarioC, hi]⟩)
    (by simp [opScenarioC])
  simpa [List.replicate] using h

/-- C5.  For any completion order of the per-image analysis tasks (a
permutation of the task indices) and any concurrency bound
`1 ≤ k ≤ N`, `_analyze_images` returns a list of exactly `N` results
whose `i`-th entry is the analysis of the `i`-th input image. -/
theorem c5_analyze_images_index_aligned {α β : Type} (f : α → β)
    (images : List α) (maxConcurrent : Nat) (completionOrder : List Nat)
    (hk1 : 1 ≤ maxConcurrent) (hk2 : maxConcurrent ≤ images.length)
    (hperm : completionOrder.Perm (List.range images.length)) :
    analyze_images f images maxConcurrent completionOrder =
      images.map (fun u => some (f u)) ∧
    (analyze_images f images maxConcurrent completionOrder).length =
      images.length := by
  have hmain : analyze_images f images maxConcurrent completionOrder =
      images.map (fun u => some (f u)) := by
    apply List.ext_getElem?
    intro j
    by_cases hj : j < images.length
    · have hslots : j < (List.replicate images.length (none : Option β)).length := by
        simp [hj]
      have h1 := gather_fill_getElem? f images completionOrder
        (List.replicate images.length none) j hslots
      have hmem : j ∈ completionOrder := by
        rw [hperm.mem_iff, List.mem_range]
        exact hj
      rw [analyze_images, h1, if_pos hmem]
      obtain ⟨u, hu⟩ : ∃ u, images[j]? = some u :=
        ⟨images[j], List.getElem?_eq_getElem hj⟩
      rw [List.getElem?_map, hu]
      rfl
    · have hlen : (analyze_images f images maxConcurrent completionOrder).length =
          images.length := by
        rw [analyze_images, gather_fill_length, List.length_replicate]
      rw [List.getElem?_eq_none (by omega : (analyze_images f images
        maxConcurrent completionOrder).length ≤ j)]
      rw [List.getElem?_eq_none (by simp; omega : (images.map
        (fun u => some (f u))).length ≤ j)]
  refine ⟨hmain, ?_⟩
  rw [hmain, List.length_map]

/-- C5 witness: three images analysed under concurrency bound 2 with the
non-monotone completion order `[2, 0, 1]` still yield the input-ordered
result list. -/
theorem c5_witness :
    (1 ≤ 2 ∧ 2 ≤ 3 ∧ List.Perm [2, 0, 1] (List.range 3)) ∧
    analyze_images (fun n => n + 1) [10, 20, 30] 2 [2, 0, 1] =
      [some 11, some 21, some 31] := by
  refine ⟨⟨by norm_num, by norm_num, by decide⟩, ?_⟩
  have h := (c5_analyze_images_index_aligned (fun n => n + 1) [10, 20, 30] 2
    [2, 0, 1] (by norm_num) (by norm_num) (by decide)).1
  simpa using h

/-- C6.  `generate_images` is failure-tolerant: whenever at least one
request succeeds it returns (no exception) a dict whose keys are exactly
the ids of the succeeded requests; it raises only when every request in a
non-empty batch failed, and then the `WorkflowError` message carries the
number of failed requests. -/
theorem c6_generate_images_failure_policy
    (gen : ImageRequest → Except String String)
    (requests : List ImageRequest) :
    ((∃ r ∈ requests, exceptIsOk (gen r) = true) →
      ∃ m, generate_images gen requests = .ok m ∧
        ∀ s, m.any (fun p => p.1 == s) =
          requests.any (fun r => r.id == s && exceptIsOk (gen r))) ∧
    (requests ≠ [] → (∀ r ∈ requests, exceptIsOk (gen r) = false) →
      generate_images gen requests = .error (.workflowError
        ("All " ++ toString requests.length ++
          " image generation requests failed"))) := by
  constructor
  · rintro ⟨r0, hr0, hok0⟩
    have hne : requests.isEmpty = false := by
      cases requests with
      | nil => simp at hr0
      | cons a l => rfl
    have hall : ¬ ((collect_errors (requests.zip (requests.map gen))).length =
        requests.length) := by
      rw [collect_errors_length_eq_iff]
      intro hl
      have := hl r0 hr0
      rw [this] at hok0
      simp at hok0
    refine ⟨collect_generated (requests.zip (requests.map gen)), ?_, ?_⟩
    · unfold generate_images
      simp only [hne, Bool.false_eq_true, if_false]
      rw [if_neg (fun hc => hall hc.2)]
    · intro s
      unfold collect_generated
      rw [collect_generated_any_key (requests.zip (requests.map gen)) [] s]
      simp only [List.any_nil, Bool.false_or]
      exact zip_map_any gen (fun r res => r.id == s && exceptIsOk res) requests
  · intro hne hall
    have hne' : requests.isEmpty = false := by
      cases requests with
      | nil => exact absurd rfl hne
      | cons a l => rfl
    have hlen : (collect_errors (requests.zip (requests.map gen))).length =
        requests.length := (collect_errors_length_eq_iff gen requests).mpr hall
    have hpos : requests.length ≠ 0 := by
      cases requests with
      | nil => exact absurd rfl hne
      | cons a l => simp
    unfold generate_images
    simp only [hne', Bool.false_eq_true, if_false]
    rw [if_pos ⟨by omega, hlen⟩, hlen]

/-- C6 witness: Scenario D (three requests, only the second fails) gives a
2-entry map with no exception; Scenario E (two requests, both fail)
raises a `WorkflowError` whose message references the 2 failed
requests. -/
theorem c6_witness :
    (∃ r ∈ reqsScenarioD, exceptIsOk (genScenarioD r) = true) ∧
    generate_images genScenarioD reqsScenarioD =
      .ok [("img1", "generated_img1.png"), ("img3", "generated_img3.png")] ∧
    (reqsScenarioE ≠ [] ∧ ∀ r ∈ reqsScenarioE, exceptIsOk (genAllFail r) = false) ∧
    generate_images genAllFail reqsScenarioE =
      .error (.workflowError "All 2 image generation requests failed") := by
  have hexD : ∃ r ∈ reqsScenarioD, exceptIsOk (genScenarioD r) = true :=
    ⟨⟨"img1", "a cat", none⟩, by simp [reqsScenarioD], rfl⟩
  have hallE : ∀ r ∈ reqsScenarioE, exceptIsOk (genAllFail r) = false :=
    fun r _ => rfl
  have hneE : reqsScenarioE ≠ [] := by simp [reqsScenarioE]
  refine ⟨hexD, ?_, ⟨hneE, hallE⟩, ?_⟩
  · obtain ⟨m, hm, -⟩ :=
      (c6_generate_images_failure_policy genScenarioD reqsScenarioD).1 hexD
    rfl
  · have h :=
      (c6_generate_images_failure_policy genAllFail reqsScenarioE).2 hneE hallE
    simpa [reqsScenarioE] using h

/-- C2 counterexample.  `ConversionWorkflow._process_images` back-fills
the extracted asset path by assigning `element.source = str(saved_path)`:
the heap cell of the pre-existing element reference 0 changes value, an
in-place field mutation, not a replacement.  Moreover the rebuild done by
`NewSlideWorkflow._update_image_paths` does not copy all fields other
than `source` (the original's alt text "logo" is reset to ""), and the
function then raises `AttributeError` at the `PageDefinition` rebuild
(`page.background_image` is not a declared field), so no updated page
list is ever observable. -/
theorem c2_counterexample_inplace_mutation :
    process_images (fun _ _ p => some p) [(100, 100)] [[0]]
        [.image imgElemA] "tmp" =
      .ok ([[0]], [.image imgElemAUpdated]) ∧
    [Element.image imgElemA][0]? = some (.image imgElemA) ∧
    Element.image imgElemA ≠ Element.image imgElemAUpdated ∧
    update_image_paths [("img1", "assets/img1.png")] [[0]] [.image imgElemB] =
      (.error (.attributeError
        "'PageDefinition' object has no attribute 'background_image'"),
       [.image imgElemB, .image imgElemBUpdated]) ∧
    imgElemB.altText ≠ imgElemBUpdated.altText := by
  exact ⟨rfl, rfl, by decide, rfl, by decide⟩

/-- C2 amended.  The element loop of `NewSlideWorkflow._update_image_paths`
never mutates an existing element: every pre-existing heap cell keeps its
value, and a matched image element is replaced at its array index by a
freshly allocated element that copies the original's position, size, fit
mode and z-index, carries the generated path as source, and resets
`alt_text` and `opacity` to the constructor defaults.  The function then
raises `AttributeError` at the first page's `PageDefinition` rebuild
(`page.background_image` is not a declared field), so every non-empty
page list aborts without returning updated pages — the existing elements
still unmutated — while the empty list returns `[]` unchanged.
(`ConversionWorkflow._process_images`, by contrast, mutates `source` in
place, as the counterexample shows.) -/
theorem c2_update_image_paths_replaces_whole_elements
    (gen : List (String × String)) (pages : List (List Nat))
    (heap : List Element)
    (wf : ∀ p ∈ pages, ∀ r ∈ p, r < heap.length) :
    (∀ r, r < heap.length →
      (update_image_paths gen pages heap).2[r]? = heap[r]?) ∧
    (∀ (e : Element) (e2 : Element), updated_element gen e = some e2 →
      ∃ ie pr, e = .image ie ∧
        gen.find? (fun q => strHasSub q.1 ie.source) = some pr ∧
        e2 = .image ⟨ie.position, ie.size, ie.zIndex, 1, pr.2, ie.fitMode, ""⟩) ∧
    (pages = [] → update_image_paths gen pages heap = (.ok [], heap)) ∧
    (∀ (p : List Nat) (ps : List (List Nat)), pages = p :: ps →
      (update_image_paths gen pages heap).1 = .error (.attributeError
        "'PageDefinition' object has no attribute 'background_image'") ∧
      ∀ (j : Nat) (r : Nat), p[j]? = some r →
        ∃ r' e, (update_image_paths_refs gen p heap).1[j]? = some r' ∧
          heap[r]? = some e ∧
          ((updated_element gen e = none ∧ r' = r ∧
             (update_image_paths gen pages heap).2[r']? = some e) ∨
           (∃ e2, updated_element gen e = some e2 ∧
             (update_image_paths gen pages heap).2[r']? = some e2))) := by
  refine ⟨?_, ?_, ?_, ?_⟩
  · intro r hr
    exact getElem?_of_heap_grows (upd_pages_heap_grows gen pages heap) hr
  · intro e e2 h
    exact updated_element_some h
  · intro h
    subst h
    rfl
  · intro p ps h
    subst h
    refine ⟨rfl, ?_⟩
    intro j r hj
    exact upd_refs_spec gen p heap (wf p (List.mem_cons_self p ps)) j r hj

/-- C2 witness: the no-mutation guarantee applied to the concrete
one-page, one-element store of the counterexample's replacement run: the
pre-existing cell 0 is unchanged even though a replacement element was
allocated for it. -/
theorem c2_witness :
    (∀ p ∈ [[0]], ∀ r ∈ p, r < [Element.image imgElemB].length) ∧
    (update_image_paths [("img1", "assets/img1.png")] [[0]]
        [.image imgElemB]).2[0]? = [Element.image imgElemB][0]? := by
  have wf : ∀ p ∈ [[0]], ∀ r ∈ p, r < [Element.image imgElemB].length := by
    intro p hp r hr
    rcases List.mem_singleton.mp hp with rfl
    rcases List.mem_singleton.mp hr with rfl
    norm_num
  refine ⟨wf, ?_⟩
  exact (c2_update_image_paths_replaces_whole_elements
    [("img1", "assets/img1.png")] [[0]] [.image imgElemB] wf).1 0 (by norm_num)

/-- C1 counterexample.  A page whose image element has a valid position
and size but no source makes `parse_pages` raise `KeyError("source")`,
which is neither a pydantic `ValidationError` nor a page-identifying
`WorkflowValidationError`; the claim's promised error type is wrong. -/
theorem c1_counterexample_missing_source_is_keyerror :
    parse_pages [⟨none, none, none, some [rawImageNoSource]⟩] =
      .error (.keyError "source") ∧
    (PyError.keyError "source").isValidation = false ∧
    (PyError.keyError "source").isWorkflowValidation = false := by
  exact ⟨rfl, rfl, rfl⟩

/-- C1 amended.  A raw page list containing a text element with no
content, an image element with no source, or a text/image element missing
position or size never parses: the whole parse aborts with an exception
and no partial page list is returned.  However, the missing image
source / position / size cases surface as an uncaught `KeyError` naming
the missing key (not a `ValidationError` identifying the page), as the
concrete runs show. -/
theorem c1_missing_required_field_aborts_parse :
    (∀ pagesData : List RawPage,
      (∃ p ∈ pagesData, ∃ e ∈ p.elements.getD [], badRawElement e) →
      ∃ err, parse_pages pagesData = .error err) ∧
    parse_pages [⟨none, none, none, some [rawImageNoSource]⟩] =
      .error (.keyError "source") ∧
    parse_pages [⟨none, none, none,
        some [{ rawImageNoSource with source := some "a.png", position := none }]⟩] =
      .error (.keyError "position") ∧
    parse_pages [⟨none, none, none,
        some [{ rawImageNoSource with source := some "a.png", size := none }]⟩] =
      .error (.keyError "size") := by
  refine ⟨?_, rfl, rfl, rfl⟩
  intro pagesData ⟨p, hp, e, he, hbad⟩
  cases hres : parse_pages pagesData with
  | error err => exact ⟨err, rfl⟩
  | ok pages =>
      exfalso
      obtain ⟨n, pg, hnorm⟩ := parse_pages_from_ok_all_raw hres p hp
      have hels := normalize_page_ok hnorm
      obtain ⟨r, hr⟩ := parse_elements_ok_all hels e he
      exact parse_element_ok_not_bad hr hbad

/-- C1 witness: the general abort property applied to the concrete page
list with a source-less image element. -/
theorem c1_witness :
    (∃ p ∈ [(⟨none, none, none, some [rawImageNoSource]⟩ : RawPage)],
      ∃ e ∈ p.elements.getD [], badRawElement e) ∧
    (∃ err, parse_pages [⟨none, none, none, some [rawImageNoSource]⟩] =
      .error err) := by
  have hbad : ∃ p ∈ [(⟨none, none, none, some [rawImageNoSource]⟩ : RawPage)],
      ∃ e ∈ p.elements.getD [], badRawElement e := by
    refine ⟨⟨none, none, none, some [rawImageNoSource]⟩, by simp, rawImageNoSource, by simp, ?_⟩
    right; left
    exact ⟨rfl, rfl⟩
  exact ⟨hbad, (c1_missing_required_field_aborts_parse).1 _ hbad⟩

/-- C3 counterexample.  A fully valid text element carrying the
upper-case alignment string "CENTER" parses successfully, but to
alignment `left`: the parser does not lower-case the string before the
enum lookup, so "CENTER" falls into the `ValueError` default branch
instead of parsing to `center`. -/
theorem c3_counterexample_upper_case_alignment :
    parse_pages [⟨none, none, none, some [rawTextElemCenter]⟩] =
      .ok [⟨1, some "", [.text textElemCenterParsed], none⟩] ∧
    rawTextElemCenter.alignment = some "CENTER" ∧
    textElemCenterParsed.alignment = .left ∧
    Alignment.left ≠ Alignment.center := by
  exact ⟨rfl, rfl, rfl, by decide⟩

/-- C3 amended.  The alignment string is matched case-sensitively against
the enum values left / center / right / justify; any other string
(including upper- or mixed-case spellings of valid alignments) yields
`left` with only a warning, never an error, and every parsed text
element's alignment is exactly what this matching produces on its raw
alignment string (default "left"). -/
theorem c3_alignment_case_sensitive_default_left :
    (∀ s : String, s ≠ "left" → s ≠ "center" → s ≠ "right" → s ≠ "justify" →
      parseAlignmentStr s = .left) ∧
    (parseAlignmentStr "left" = .left ∧ parseAlignmentStr "center" = .center ∧
      parseAlignmentStr "right" = .right ∧ parseAlignmentStr "justify" = .justify) ∧
    (∀ (d : RawElement) (t : TextElement), parse_text_element d = .ok t →
      t.alignment = parseAlignmentStr (d.alignment.getD "left")) ∧
    parse_pages [⟨none, none, none, some [rawTextElemCenter]⟩] =
      .ok [⟨1, some "", [.text textElemCenterParsed], none⟩] := by
  refine ⟨?_, ⟨rfl, rfl, rfl, rfl⟩, ?_, rfl⟩
  · intro s h1 h2 h3 h4
    simp [parseAlignmentStr, h1, h2, h3, h4]
  · intro d t ht
    exact (parse_text_element_ok_facts ht).2.2.2.2.2

/-- C3 witness: the default branch applied to the concrete string
"CENTER", and the alignment characterization applied to the concrete
parsed element. -/
theorem c3_witness :
    ("CENTER" ≠ "left" ∧ "CENTER" ≠ "center" ∧ "CENTER" ≠ "right" ∧
      "CENTER" ≠ "justify") ∧
    parseAlignmentStr "CENTER" = .left ∧
    (parse_text_element rawTextElemCenter = .ok textElemCenterParsed ∧
      textElemCenterParsed.alignment =
        parseAlignmentStr (rawTextElemCenter.alignment.getD "left")) := by
  refine ⟨⟨by decide, by decide, by decide, by decide⟩, ?_, rfl, ?_⟩
  · exact c3_alignment_case_sensitive_default_left.1 "CENTER"
      (by decide) (by decide) (by decide) (by decide)
  · exact c3_alignment_case_sensitive_default_left.2.2.1 rawTextElemCenter
      textElemCenterParsed rfl

/-- C9 counterexample.  The `Position` model has no non-negativity
constraint (`x: int = Field(...)`, no `ge=0`), so a raw image element
with `x = -1` parses successfully and the produced element violates the
claimed `x ≥ 0` bound. -/
theorem c9_counterexample_negative_position :
    parse_pages [⟨none, none, none, some [rawImageNegX]⟩] =
      .ok [⟨1, some "", [.image imageNegXParsed], none⟩] ∧
    imageNegXParsed.position.x < 0 := by
  exact ⟨rfl, by decide⟩

/-- C9 amended.  Every element produced by a successful parse satisfies
the size bounds `width > 0` and `height > 0` (enforced by the `Size`
model's `gt=0` fields); position coordinates are plain ints and are not
constrained to be non-negative. -/
theorem c9_parsed_elements_have_positive_sizes
    (pagesData : List RawPage) (pages : List PageDefinition)
    (h : parse_pages pagesData = .ok pages) :
    ∀ page ∈ pages, ∀ e ∈ page.elements,
      0 < e.size.width ∧ 0 < e.size.height := by
  intro page hpage e he
  obtain ⟨d, n, hnorm⟩ := parse_pages_from_ok_pages h page hpage
  have hels := normalize_page_ok hnorm
  exact parse_elements_ok_sizes hels e he

/-- C9 witness: the size-bound invariant applied to the successful parse
of the concrete image element with negative x. -/
theorem c9_witness :
    parse_pages [⟨none, none, none, some [rawImageNegX]⟩] =
      .ok [⟨1, some "", [.image imageNegXParsed], none⟩] ∧
    (0 < (Element.image imageNegXParsed).size.width ∧
      0 < (Element.image imageNegXParsed).size.height) := by
  have hparse : parse_pages [⟨none, none, none, some [rawImageNegX]⟩] =
      .ok [⟨1, some "", [.image imageNegXParsed], none⟩] := rfl
  refine ⟨hparse, ?_⟩
  exact c9_parsed_elements_have_positive_sizes _ _ hparse
    ⟨1, some "", [.image imageNegXParsed], none⟩ (by simp)
    (.image imageNegXParsed) (by simp)

/-- C8 witness: source size `(0, 5)` hits the fallback branch. -/
theorem c8_witness :
    ((0 : Int), (5 : Int)).1 = 0 ∧
    normalize_position ⟨some 7, some 7⟩ (0, 5) (1920, 1080) = .ok ⟨0, 0⟩ ∧
    normalize_size ⟨some 7, some 7⟩ (0, 5) (1920, 1080) = .ok ⟨100, 50⟩ := by
  refine ⟨rfl, ?_, ?_⟩
  · exact (c8_zero_dimension_fallbacks ⟨some 7, some 7⟩ ⟨some 7, some 7⟩
      (0, 5) (1920, 1080) (Or.inl rfl)).1
  · exact (c8_zero_dimension_fallbacks ⟨some 7, some 7⟩ ⟨some 7, some 7⟩
      (0, 5) (1920, 1080) (Or.inl rfl)).2

end Slidemaker
